import Mathlib

/-!
# One-shot stackful continuations (`boost/context/continuation_v1.hpp`)

A shallow embedding of the continuation handle, the transfer protocol, the
control block, the entry trampoline and the stack layout computation of
`continuation_v1.hpp`, followed by the properties established about them.

Conventions of the embedding

* Pointers (`fcontext_t`, `void *`, `char *`) are machine addresses, natural
  numbers below `2 ^ 64`; address `0` is `nullptr`.
* `BOOST_ASSERT` is enabled: a failed assertion ends the operation with
  `Signal.assertion`.
* A call of the raw switch primitive suspends the calling stack.  What the call
  eventually yields is decided by the rest of the program and is supplied to
  the model as a `Resumption`.
* Effects are recorded in a `World`: the objects living at addresses and the
  log of calls to the external collaborators (stack provider, raw switch
  primitive).
-/

namespace Context

/-! ## Data model -/

/-- Raw context reference `fcontext_t` (a `void *`). -/
abbrev fcontext_t := Nat

/-- The null pointer. -/
def nullptr : Nat := 0

/-- The pair `transfer_t` exchanged by the raw switch primitive. -/
structure transfer_t where
  fctx : fcontext_t
  data : Nat
deriving DecidableEq, Repr

/-- Stack memory descriptor `stack_context` handed out by the stack provider. -/
structure stack_context where
  size : Nat
  sp : Nat
deriving DecidableEq, Repr

/-- Descriptor `preallocated` of a caller-supplied stack region. -/
structure preallocated where
  sp : Nat
  size : Nat
  sctx : stack_context
deriving DecidableEq, Repr

/-- The functions that the source hands to `ontop_fcontext`. -/
inductive OntopFn
  | context_unwind
  | context_exit
  | context_ontop
  | context_ontop_void
deriving DecidableEq, Repr

/-- Objects that the source places at an address and passes by pointer. -/
inductive Obj (α : Type)
  /-- A `std::tuple< Arg ... >` holding the transferred values. -/
  | tuple (vs : List α)
  /-- The result of `std::make_tuple( fn, arg ... )` in the `exec_ontop` overloads. -/
  | fn_tuple (fn : Nat) (vs : List α)
  /-- A control block `record< Ctx, StackAlloc, Fn >`: allocator, descriptor, callable. -/
  | record (salloc : Nat) (sctx : stack_context) (fn : Nat)
deriving DecidableEq, Repr

/-- Calls to the external collaborators, in program order. -/
inductive Event
  | allocate (salloc : Nat)
  | deallocate (salloc : Nat) (sctx : stack_context)
  | make_fcontext (sp : Nat) (size : Nat)
  | jump_fcontext (target : fcontext_t) (vp : Nat)
  | ontop_fcontext (target : fcontext_t) (vp : Nat) (fn : OntopFn)
  /-- The in-place destructor call `p->~record()`. -/
  | record_destroyed (p : Nat)
deriving DecidableEq, Repr

/-- Memory contents and the log of external calls. -/
structure World (α : Type) where
  mem : Nat → Option (Obj α)
  log : List Event

/-- Append one event to the log. -/
def World.emit {α : Type} (w : World α) (e : Event) : World α :=
  World.mk w.mem (w.log ++ [e])

/-- Construct an object at an address. -/
def World.store {α : Type} (w : World α) (p : Nat) (o : Obj α) : World α :=
  World.mk (Function.update w.mem p (some o)) w.log

/-- End the lifetime of the object at an address. -/
def World.erase {α : Type} (w : World α) (p : Nat) : World α :=
  World.mk (Function.update w.mem p none) w.log

/-- The `BOOST_ASSERT` sites of the source. -/
inductive Assertion
  /-- Assertion `BOOST_ASSERT( nullptr != c.t_.fctx)` of the four resume overloads. -/
  | ctx_not_null
  /-- Assertion `BOOST_ASSERT( nullptr != c.t_.data)` of `data`. -/
  | data_not_null
  /-- Assertion `BOOST_ASSERT( nullptr != rec)` of `context_entry`. -/
  | rec_not_null
  /-- Assertion `BOOST_ASSERT( nullptr != t.fctx)` of `context_entry`. -/
  | return_not_null
  /-- Assertion `BOOST_ASSERT( nullptr != sp)` of `context_create`. -/
  | sp_not_null
  /-- Assertion `BOOST_ASSERT( nullptr != fctx)` of `context_create`. -/
  | fctx_not_null
deriving DecidableEq, Repr

/-- Abnormal ends of an operation. -/
inductive Signal
  /-- A `BOOST_ASSERT` failed. -/
  | assertion (site : Assertion)
  /-- The exception `forced_unwind( fctx)` is propagating. -/
  | forced_unwind (fctx : fcontext_t)
  /-- An exception left a `noexcept` function or a destructor. -/
  | terminate
  /-- Undefined behaviour: a pointer was read at a type that is not there. -/
  | undefined
  /-- Any other C++ exception (a failure of the stack provider or of the
  user callable). -/
  | exception (id : Nat)
deriving DecidableEq, Repr

/-- How a suspended call of the raw switch primitive ends: it returns the
transfer `t`, or `context_unwind` was injected on the suspended stack with
transfer `t`. -/
inductive Resumption
  | resumed (t : transfer_t)
  | unwound (t : transfer_t)
deriving DecidableEq, Repr

/-- The move-only handle `continuation`; its only member is `t_`. -/
structure continuation where
  t_ : transfer_t
deriving DecidableEq, Repr

/-- The state of an operation that received a handle by rvalue reference:
the world, the handle as the operation leaves it, and what the operation
returned. -/
structure Call (α : Type) (β : Type) where
  world : World α
  c : continuation
  result : Except Signal β

/-! ## Helpers of `detail` -/

/-- Function `detail::exchange( obj, new_value)`: yields the old value and the
object's new content. -/
def exchange (obj : Nat) (new_value : Nat) : Nat × Nat := (obj, new_value)

/-- Function `context_unwind`: throws `forced_unwind( t.fctx)`. -/
def context_unwind (t : transfer_t) : Except Signal transfer_t :=
  Except.error (Signal.forced_unwind t.fctx)

/-- What a suspended switch call yields to its caller. -/
def Resumption.outcome : Resumption → Except Signal transfer_t
  | Resumption.resumed t => Except.ok t
  | Resumption.unwound t => context_unwind t

/-- Modelled from the spec: the raw switch primitive `jump_fcontext`
(`boost/context/detail/fcontext.hpp`, implemented in assembly), section 6
`switch(ctx, payload) -> (from_ctx, payload)`: suspends the caller, resumes
`target`, and returns when the caller is resumed. -/
def jump_fcontext {α : Type} (target : fcontext_t) (vp : Nat) (r : Resumption)
    (w : World α) : World α × Except Signal transfer_t :=
  (w.emit (Event.jump_fcontext target vp), r.outcome)

/-- Modelled from the spec: the raw switch primitive `ontop_fcontext`
(`boost/context/detail/fcontext.hpp`, implemented in assembly), section 6
`inject(ctx, payload, fn) -> (from_ctx, payload)`, as seen by its caller:
suspends the caller, runs `fn` on the stack of `target`, and returns when the
caller is resumed. -/
def ontop_fcontext {α : Type} (target : fcontext_t) (vp : Nat) (fn : OntopFn)
    (r : Resumption) (w : World α) : World α × Except Signal transfer_t :=
  (w.emit (Event.ontop_fcontext target vp fn), r.outcome)

/-- Modelled from the spec: the transfer that the raw switch primitive hands to
the resumed side (to the pending switch call, or to the injected function):
section 6, "the context identity of whoever resumed the caller and the payload
they sent". -/
def delivered (sender : fcontext_t) (vp : Nat) : transfer_t :=
  transfer_t.mk sender vp

/-! ## The handle -/

/-- Constructor `continuation( detail::transfer_t t)`: `t_{ t.fctx, t.data }`. -/
def continuation.of_transfer (t : transfer_t) : continuation :=
  continuation.mk (transfer_t.mk t.fctx t.data)

/-- Constructor `continuation( detail::fcontext_t fctx)`: `t_{ fctx, nullptr }`. -/
def continuation.of_fctx (fctx : fcontext_t) : continuation :=
  continuation.mk (transfer_t.mk fctx nullptr)

/-- Default constructor: `t_{ nullptr, nullptr }`. -/
def continuation.default : continuation :=
  continuation.mk (transfer_t.mk nullptr nullptr)

/-- Conversion `explicit operator bool()`: `nullptr != t_.fctx`. -/
def continuation.toBool (c : continuation) : Bool :=
  decide (nullptr ≠ c.t_.fctx)

/-- Function `has_data`: `c && nullptr != c.t_.data`. -/
def has_data (c : continuation) : Bool :=
  c.toBool && decide (nullptr ≠ c.t_.data)

/-- Destructor `~continuation()`. The value returned by `ontop_fcontext` is
discarded; an exception leaving the destructor terminates the program. -/
def continuation.destructor {α : Type} (c : continuation) (r : Resumption)
    (w : World α) : Call α Unit :=
  if nullptr ≠ c.t_.fctx then
    let x := exchange c.t_.fctx nullptr
    let c1 := continuation.mk (transfer_t.mk x.2 c.t_.data)
    let j := ontop_fcontext x.1 nullptr OntopFn.context_unwind r w
    match j.2 with
    | Except.ok _ => Call.mk j.1 c1 (Except.ok ())
    | Except.error _ => Call.mk j.1 c1 (Except.error Signal.terminate)
  else
    Call.mk w c (Except.ok ())

/-- Move constructor `continuation( continuation && other)`: the new handle and
`other` as it is left. -/
def continuation.move (other : continuation) : continuation × continuation :=
  (continuation.mk (transfer_t.mk other.t_.fctx other.t_.data),
   continuation.mk (transfer_t.mk nullptr nullptr))

/-- Member `swap`: `std::swap( t_, other.t_)`; yields `*this` and `other`
afterwards. -/
def continuation.swap (self : continuation) (other : continuation) :
    continuation × continuation :=
  (continuation.mk other.t_, continuation.mk self.t_)

/-- Handles as objects with an identity: the handle living at each address. -/
abbrev Handles := Nat → continuation

/-- The state after a move assignment. -/
structure Assigned (α : Type) where
  handles : Handles
  world : World α
  result : Except Signal Unit

/-- Move assignment `operator=( continuation && other)` for the handle at
address `this` and the handle at address `other`. The temporary `tmp` is
destroyed at the end of the block. -/
def continuation.assign {α : Type} (this : Nat) (other : Nat) (h : Handles)
    (r : Resumption) (w : World α) : Assigned α :=
  if this ≠ other then
    let m := continuation.move (h other)
    let h1 := Function.update h other m.2
    let s := continuation.swap (h1 this) m.1
    let h2 := Function.update h1 this s.1
    let d := continuation.destructor s.2 r w
    Assigned.mk h2 d.world d.result
  else
    Assigned.mk h w (Except.ok ())

/-! ## Transfer protocol -/

/-- The type `result_type< Arg ... >::type`: the plain value for exactly one
`Arg`, the tuple otherwise. -/
inductive Result (α : Type)
  | plain (v : α)
  | tuple (vs : List α)
deriving DecidableEq, Repr

/-- Function `result_type< Arg ... >::get` for `n = sizeof ... (Arg)`. The
pointer `t.data` is cast to `std::tuple< Arg ... > *`; the specialisation for
one `Arg` yields `std::get< 0 >( * p)`, the primary template yields `* p`.
Reading through a null pointer, or at an address that does not hold a tuple of
`n` values, is undefined. -/
def result_type.get {α : Type} (n : Nat) (t : transfer_t) (w : World α) :
    Except Signal (Result α) :=
  if t.data = nullptr then Except.error Signal.undefined
  else if n = 1 then
    match w.mem t.data with
    | some (Obj.tuple [v]) => Except.ok (Result.plain v)
    | _ => Except.error Signal.undefined
  else
    match w.mem t.data with
    | some (Obj.tuple vs) =>
      if vs.length = n then Except.ok (Result.tuple vs)
      else Except.error Signal.undefined
    | _ => Except.error Signal.undefined

/-- Function `data< Arg ... >( continuation & c)` for `n = sizeof ... (Arg)`. -/
def data {α : Type} (n : Nat) (c : continuation) (w : World α) :
    Except Signal (Result α) :=
  if nullptr ≠ c.t_.data then result_type.get n c.t_ w
  else Except.error (Signal.assertion Assertion.data_not_null)

/-- Overload `callcc( continuation && c, Arg ... arg)`; `tpl` is the address of
the local `tpl`. -/
def callcc {α : Type} (c : continuation) (tpl : Nat) (arg : List α)
    (r : Resumption) (w : World α) : Call α continuation :=
  if nullptr ≠ c.t_.fctx then
    let w1 := w.store tpl (Obj.tuple arg)
    let x := exchange c.t_.fctx nullptr
    let c1 := continuation.mk (transfer_t.mk x.2 c.t_.data)
    let j := jump_fcontext x.1 tpl r w1
    Call.mk j.1 c1 (j.2.map continuation.of_transfer)
  else
    Call.mk w c (Except.error (Signal.assertion Assertion.ctx_not_null))

/-- Overload `callcc( continuation && c, exec_ontop_arg_t, Fn && fn, Arg ... arg)`;
`tpl` is the address of the local `tpl`. -/
def callcc_ontop {α : Type} (c : continuation) (tpl : Nat) (fn : Nat)
    (arg : List α) (r : Resumption) (w : World α) : Call α continuation :=
  if nullptr ≠ c.t_.fctx then
    let w1 := w.store tpl (Obj.fn_tuple fn arg)
    let x := exchange c.t_.fctx nullptr
    let c1 := continuation.mk (transfer_t.mk x.2 c.t_.data)
    let j := ontop_fcontext x.1 tpl OntopFn.context_ontop r w1
    Call.mk j.1 c1 (j.2.map continuation.of_transfer)
  else
    Call.mk w c (Except.error (Signal.assertion Assertion.ctx_not_null))

/-- The non-template overload `callcc( continuation && c)`. -/
def callcc_void {α : Type} (c : continuation) (r : Resumption) (w : World α) :
    Call α continuation :=
  if nullptr ≠ c.t_.fctx then
    let x := exchange c.t_.fctx nullptr
    let c1 := continuation.mk (transfer_t.mk x.2 c.t_.data)
    let j := jump_fcontext x.1 nullptr r w
    Call.mk j.1 c1 (j.2.map continuation.of_transfer)
  else
    Call.mk w c (Except.error (Signal.assertion Assertion.ctx_not_null))

/-- Overload `callcc( continuation && c, exec_ontop_arg_t, Fn && fn)`; `p` is
the address of the local `p`. -/
def callcc_ontop_void {α : Type} (c : continuation) (p : Nat) (fn : Nat)
    (r : Resumption) (w : World α) : Call α continuation :=
  if nullptr ≠ c.t_.fctx then
    let w1 := w.store p (Obj.fn_tuple fn [])
    let x := exchange c.t_.fctx nullptr
    let c1 := continuation.mk (transfer_t.mk x.2 c.t_.data)
    let j := ontop_fcontext x.1 p OntopFn.context_ontop_void r w1
    Call.mk j.1 c1 (j.2.map continuation.of_transfer)
  else
    Call.mk w c (Except.error (Signal.assertion Assertion.ctx_not_null))

/-- The values of a result, as a call site spreads them into an argument
list: `x` for a plain value, `std::get< 0 >( x), std::get< 1 >( x), ...` for a
tuple. -/
def Result.values {α : Type} : Result α → List α
  | Result.plain v => [v]
  | Result.tuple vs => vs

/-- The value that stands for the values `vs` at the type
`result_type< Arg ... >::type`: the plain value when there is exactly one, the
tuple otherwise. -/
def Result.of_values {α : Type} : List α → Result α
  | [v] => Result.plain v
  | vs => Result.tuple vs

/-- The target and the payload pointer of the switch the log ends with. -/
def World.last_switch {α : Type} (w : World α) : Option (fcontext_t × Nat) :=
  match w.log.getLast? with
  | some (Event.jump_fcontext target vp) => some (target, vp)
  | some (Event.ontop_fcontext target vp _) => some (target, vp)
  | _ => none

/-- The handle `continuation{ t }` that the resumed side builds from the
transfer of the switch the log ends with, performed by the context `sender`. -/
def received {α : Type} (sender : fcontext_t) (w : World α) : Option continuation :=
  (w.last_switch).map (fun s => continuation.of_transfer (delivered sender s.2))

/-- The overload that a resume `callcc( std::move( c), arg ...)` selects: without
values the non-template `callcc( continuation &&)`, which is preferred to the
variadic template with an empty pack; with at least one value the variadic
template `callcc( continuation &&, Arg ...)`. -/
def resume {α : Type} (c : continuation) (tpl : Nat) (arg : List α)
    (r : Resumption) (w : World α) : Call α continuation :=
  match arg with
  | [] => callcc_void c r w
  | _ :: _ => callcc c tpl arg r w

/-- The echoing callable of the round-trip property: it reads the `n` values
it was sent with `data` and at once resumes the handle it was given with those
values; `tpl` is the address of the local of that `callcc`. -/
def echo {α : Type} (n : Nat) (tpl : Nat) (c : continuation) (r : Resumption)
    (w : World α) : Call α continuation :=
  match data n c w with
  | Except.ok x => resume c tpl x.values r w
  | Except.error s => Call.mk w c (Except.error s)

/-! ## Control block and entry trampoline -/

/-- The state after the user callable was invoked: the world, the handle it
was passed as the callable leaves it, and the handle it returned or the
exception it threw. -/
structure Invoked (α : Type) where
  world : World α
  arg : continuation
  result : Except Signal continuation

/-- The user callables: `invoke fn c w` is `std::invoke( fn_, std::move( from) )`
for the callable `fn`. -/
abbrev Callable (α : Type) := Nat → continuation → World α → Invoked α

/-- Member `record::destroy( p)`: copies the allocator and the descriptor out
of the record, destroys the record in place and hands the stack back to the
allocator. Reading a record where none lives is undefined. -/
def record.destroy {α : Type} (p : Nat) (w : World α) :
    World α × Except Signal Unit :=
  match w.mem p with
  | some (Obj.record salloc sctx _) =>
    (((w.erase p).emit (Event.record_destroyed p)).emit
        (Event.deallocate salloc sctx), Except.ok ())
  | _ => (w, Except.error Signal.undefined)

/-- Member `record::deallocate` of the record at `p`: `destroy( this)`. -/
def record.deallocate {α : Type} (p : Nat) (w : World α) :
    World α × Except Signal Unit :=
  record.destroy p w

/-- Member `record::run` for the record at `p`. The locals `cc` and `from` are
destroyed when the function is left, also when the callable throws; `r` ends
the switch a destructor may perform. -/
def record.run {α : Type} (invoke : Callable α) (p : Nat) (t : transfer_t)
    (r : Resumption) (w : World α) : World α × Except Signal transfer_t :=
  match w.mem p with
  | some (Obj.record _ _ fn) =>
    let i := invoke fn (continuation.of_transfer t) w
    match i.result with
    | Except.ok cc =>
      let x := exchange cc.t_.fctx nullptr
      let cc1 := continuation.mk (transfer_t.mk x.2 cc.t_.data)
      let d1 := continuation.destructor cc1 r i.world
      let d2 := continuation.destructor i.arg r d1.world
      match d1.result, d2.result with
      | Except.ok _, Except.ok _ => (d2.world, Except.ok (transfer_t.mk x.1 nullptr))
      | _, _ => (d2.world, Except.error Signal.terminate)
    | Except.error s =>
      let d := continuation.destructor i.arg r i.world
      match d.result with
      | Except.ok _ => (d.world, Except.error s)
      | Except.error _ => (d.world, Except.error Signal.terminate)
  | _ => (w, Except.error Signal.undefined)

/-- Function `context_exit< Rec >`. -/
def context_exit {α : Type} (t : transfer_t) (w : World α) :
    World α × Except Signal transfer_t :=
  let d := record.deallocate t.data w
  match d.2 with
  | Except.ok _ => (d.1, Except.ok (transfer_t.mk nullptr nullptr))
  | Except.error s => (d.1, Except.error s)

/-- The try block of `context_entry` with its handler: the handshake switch
back to `context_create`, then `rec->run( t)`; a `forced_unwind` is caught and
becomes `{ e.fctx, nullptr }`. Any other exception would leave the `noexcept`
function. -/
def context_entry_try {α : Type} (invoke : Callable α) (t_ : transfer_t)
    (r0 : Resumption) (r : Resumption) (w : World α) :
    World α × Except Signal transfer_t :=
  let j := jump_fcontext t_.fctx nullptr r0 w
  let b := match j.2 with
    | Except.ok t => record.run invoke t_.data t r j.1
    | Except.error s => (j.1, Except.error s)
  match b.2 with
  | Except.error (Signal.forced_unwind fctx) =>
    (b.1, Except.ok (transfer_t.mk fctx nullptr))
  | Except.error (Signal.exception _) => (b.1, Except.error Signal.terminate)
  | other => (b.1, other)

/-- Function `context_entry< Rec >`, running on the context `self`. It ends in
`ontop_fcontext( t.fctx, rec, context_exit< Rec >)`, which does not return:
`context_exit` runs on the stack of `t.fctx` with the transfer
`delivered self rec` and frees the stack of `self` (the trailing
`BOOST_ASSERT_MSG( false, ...)` guards against a return). The result is the
context switched into and the transfer handed on to its pending switch call. -/
def context_entry {α : Type} (invoke : Callable α) (self : fcontext_t)
    (t_ : transfer_t) (r0 : Resumption) (r : Resumption) (w : World α) :
    World α × Except Signal (fcontext_t × transfer_t) :=
  if nullptr ≠ t_.data then
    let b := context_entry_try invoke t_ r0 r w
    match b.2 with
    | Except.ok t =>
      if nullptr ≠ t.fctx then
        let w1 := b.1.emit (Event.ontop_fcontext t.fctx t_.data OntopFn.context_exit)
        let e := context_exit (delivered self t_.data) w1
        match e.2 with
        | Except.ok t1 => (e.1, Except.ok (t.fctx, t1))
        | Except.error s => (e.1, Except.error s)
      else
        (b.1, Except.error (Signal.assertion Assertion.return_not_null))
    | Except.error s => (b.1, Except.error s)
  else
    (w, Except.error (Signal.assertion Assertion.rec_not_null))

/-! ## Stack layout -/

/-- Number of values of `std::size_t` and of `std::uintptr_t`. -/
def word : Nat := 2 ^ 64

/-- Subtraction of `std::size_t` values and of addresses: it wraps. -/
def wsub (a : Nat) (b : Nat) : Nat := (a + (word - b % word)) % word

/-- The standard library function `std::align( alignment, size, ptr, space)`
for an `alignment` that is a power of two: the returned pointer, and `ptr` and
`space` as the call leaves them. The aligned address is
`( ptr - 1 + alignment) & -alignment`; when the buffer does not fit, the call
returns `nullptr` and changes nothing. -/
def std_align (alignment : Nat) (size : Nat) (ptr : Nat) (space : Nat) :
    Nat × Nat × Nat :=
  if space < size then (nullptr, ptr, space)
  else
    let aligned := (ptr + (alignment - 1)) % word / alignment * alignment
    let diff := wsub aligned ptr
    if diff > space - size then (nullptr, ptr, space)
    else (aligned, aligned, space - diff)

/-- The alignment `func_alignment` of `context_create`. -/
def func_alignment : Nat := 64

/-- The reservation of the control block in `context_create`, for the stack
top `top`, the stack size `size` and `func_size = sizeof( Record)`: the pointer
`sp` (or the failed assertion on it) and the size passed to `make_fcontext`.
With `no_std_align` (`BOOST_NO_CXX11_CONSTEXPR` or `BOOST_NO_CXX11_STD_ALIGN`
defined) the source takes `sp = top - sizeof( Record)` unaligned. -/
def reserve (no_std_align : Bool) (top : Nat) (size : Nat) (func_size : Nat) :
    Except Signal (Nat × Nat) :=
  if no_std_align then
    Except.ok (wsub top func_size, wsub size func_size)
  else
    let sp0 := wsub (wsub top func_size) func_alignment
    let space := (func_size + func_alignment) % word
    let sp := (std_align func_alignment func_size sp0 space).1
    if nullptr ≠ sp then Except.ok (sp, wsub size (wsub top sp))
    else Except.error (Signal.assertion Assertion.sp_not_null)

/-- Overload `context_create< Record >( StackAlloc salloc, Fn && fn)`;
`allocated` is what `salloc.allocate()` returns or throws, `fctx` what
`make_fcontext` returns, `func_size` is `sizeof( Record)`. -/
def context_create {α : Type} (no_std_align : Bool) (func_size : Nat)
    (salloc : Nat) (fn : Nat) (allocated : Except Signal stack_context)
    (fctx : fcontext_t) (r : Resumption) (w : World α) :
    World α × Except Signal fcontext_t :=
  let w0 := w.emit (Event.allocate salloc)
  match allocated with
  | Except.error s => (w0, Except.error s)
  | Except.ok sctx =>
    match reserve no_std_align sctx.sp sctx.size func_size with
    | Except.error s => (w0, Except.error s)
    | Except.ok l =>
      let w1 := w0.emit (Event.make_fcontext l.1 l.2)
      if nullptr ≠ fctx then
        let w2 := w1.store l.1 (Obj.record salloc sctx fn)
        let j := jump_fcontext fctx l.1 r w2
        (j.1, j.2.map transfer_t.fctx)
      else
        (w1, Except.error (Signal.assertion Assertion.fctx_not_null))

/-- Overload `context_create< Record >( preallocated palloc, StackAlloc salloc,
Fn && fn)`; `fctx` is what `make_fcontext` returns, `func_size` is
`sizeof( Record)`. -/
def context_create_preallocated {α : Type} (no_std_align : Bool)
    (func_size : Nat) (palloc : preallocated) (salloc : Nat) (fn : Nat)
    (fctx : fcontext_t) (r : Resumption) (w : World α) :
    World α × Except Signal fcontext_t :=
  match reserve no_std_align palloc.sp palloc.size func_size with
  | Except.error s => (w, Except.error s)
  | Except.ok l =>
    let w1 := w.emit (Event.make_fcontext l.1 l.2)
    if nullptr ≠ fctx then
      let w2 := w1.store l.1 (Obj.record salloc palloc.sctx fn)
      let j := jump_fcontext fctx l.1 r w2
      (j.1, j.2.map transfer_t.fctx)
    else
      (w1, Except.error (Signal.assertion Assertion.fctx_not_null))

/-- A world without objects and without events. -/
def World.empty (α : Type) : World α := World.mk (fun _ => none) []

/-- The stacks handed back to a stack provider, in program order: allocator
and descriptor of each `deallocate` call of the log. -/
def World.deallocations {α : Type} (w : World α) : List (Nat × stack_context) :=
  w.log.filterMap (fun e =>
    match e with
    | Event.deallocate salloc sctx => some (salloc, sctx)
    | _ => none)

/-- A sample callable, `[]( continuation && c) { return std::move( c); }`: it
returns the handle it was passed and leaves the world alone. -/
def return_to_caller : Callable Nat :=
  fun _ c w => Invoked.mk w (continuation.move c).2 (Except.ok (continuation.move c).1)

/-- A sample world: the control block of the callable 3 at the address 960,
on a stack of 4096 bytes below the address 1024 obtained from the
allocator 1. -/
def sample_world : World Nat :=
  (World.empty Nat).store 960 (Obj.record 1 (stack_context.mk 4096 1024) 3)

/-! ## Properties -/

/-- C8: `has_data( c)` is true exactly when the context reference of `c` is
non-null and its payload pointer is non-null; for a handle with a null context
it is false whatever payload pointer the handle still holds. -/
theorem has_data_iff (c : continuation) :
    (has_data c = true ↔ c.t_.fctx ≠ nullptr ∧ c.t_.data ≠ nullptr) ∧
    (c.t_.fctx = nullptr → has_data c = false) := by
  unfold has_data continuation.toBool
  constructor
  · simp only [Bool.and_eq_true, decide_eq_true_eq]
    constructor
    · rintro ⟨h1, h2⟩
      exact ⟨fun h => h1 h.symm, fun h => h2 h.symm⟩
    · rintro ⟨h1, h2⟩
      exact ⟨fun h => h1 h.symm, fun h => h2 h.symm⟩
  · intro h
    simp [h]

/-- Witness for C8 at a handle with a null context and a stale payload
pointer. -/
theorem has_data_iff_witness :
    has_data (continuation.mk (transfer_t.mk nullptr 9)) = false :=
  (has_data_iff (continuation.mk (transfer_t.mk nullptr 9))).2 rfl

/-- C1: for a handle with a non-null context, each of the four resume
operations performs exactly one call of the switch primitive, whose target is
the context the handle held, and leaves the handle with a null context: the
handle tests false and `has_data` is false on it. -/
theorem resume_consumes_handle {α : Type} (c : continuation)
    (hc : c.t_.fctx ≠ nullptr) (tpl : Nat) (fn : Nat) (arg : List α)
    (r : Resumption) (w : World α) :
    ((callcc c tpl arg r w).world.log
        = w.log ++ [Event.jump_fcontext c.t_.fctx tpl] ∧
      (callcc c tpl arg r w).c.t_.fctx = nullptr ∧
      (callcc c tpl arg r w).c.toBool = false ∧
      has_data (callcc c tpl arg r w).c = false) ∧
    ((callcc_void c r w).world.log
        = w.log ++ [Event.jump_fcontext c.t_.fctx nullptr] ∧
      (callcc_void c r w).c.t_.fctx = nullptr ∧
      (callcc_void c r w).c.toBool = false ∧
      has_data (callcc_void c r w).c = false) ∧
    ((callcc_ontop c tpl fn arg r w).world.log
        = w.log ++ [Event.ontop_fcontext c.t_.fctx tpl OntopFn.context_ontop] ∧
      (callcc_ontop c tpl fn arg r w).c.t_.fctx = nullptr ∧
      (callcc_ontop c tpl fn arg r w).c.toBool = false ∧
      has_data (callcc_ontop c tpl fn arg r w).c = false) ∧
    ((callcc_ontop_void c tpl fn r w).world.log
        = w.log ++ [Event.ontop_fcontext c.t_.fctx tpl OntopFn.context_ontop_void] ∧
      (callcc_ontop_void c tpl fn r w).c.t_.fctx = nullptr ∧
      (callcc_ontop_void c tpl fn r w).c.toBool = false ∧
      has_data (callcc_ontop_void c tpl fn r w).c = false) := by
  have hc1 : nullptr ≠ c.t_.fctx := fun h => hc h.symm
  simp [callcc, callcc_void, callcc_ontop, callcc_ontop_void, hc1, exchange,
    jump_fcontext, ontop_fcontext, World.emit, World.store, has_data,
    continuation.toBool]

/-- Witness for C1 at the handle `{ 5, 9 }` in the empty world. -/
theorem resume_consumes_handle_witness :
    (callcc (continuation.mk (transfer_t.mk 5 9)) 100 [1, 2]
        (Resumption.resumed (transfer_t.mk 7 0)) (World.empty Nat)).c.t_.fctx
      = nullptr :=
  (resume_consumes_handle (continuation.mk (transfer_t.mk 5 9)) (by decide) 100 3
    [1, 2] (Resumption.resumed (transfer_t.mk 7 0)) (World.empty Nat)).1.2.1

/-- C2: each of the four resume operations fails its precondition assertion
exactly when the handle it is given has a null context, and in that case it
fails before any switch: the log and the handle are as they were. A
default-constructed handle, a moved-from handle and a handle that was already
resumed have a null context. -/
theorem resume_null_handle_fails {α : Type} (c : continuation) (tpl : Nat)
    (fn : Nat) (arg : List α) (r : Resumption) (w : World α) :
    (((callcc c tpl arg r w).result
          = Except.error (Signal.assertion Assertion.ctx_not_null)
        ↔ c.t_.fctx = nullptr) ∧
      ((callcc_void c r w).result
          = Except.error (Signal.assertion Assertion.ctx_not_null)
        ↔ c.t_.fctx = nullptr) ∧
      ((callcc_ontop c tpl fn arg r w).result
          = Except.error (Signal.assertion Assertion.ctx_not_null)
        ↔ c.t_.fctx = nullptr) ∧
      ((callcc_ontop_void c tpl fn r w).result
          = Except.error (Signal.assertion Assertion.ctx_not_null)
        ↔ c.t_.fctx = nullptr)) ∧
    (c.t_.fctx = nullptr →
      (callcc c tpl arg r w).world.log = w.log ∧
      (callcc_void c r w).world.log = w.log ∧
      (callcc_ontop c tpl fn arg r w).world.log = w.log ∧
      (callcc_ontop_void c tpl fn r w).world.log = w.log ∧
      (callcc c tpl arg r w).c = c ∧
      (callcc_void c r w).c = c ∧
      (callcc_ontop c tpl fn arg r w).c = c ∧
      (callcc_ontop_void c tpl fn r w).c = c) ∧
    (continuation.default.t_.fctx = nullptr ∧
      (continuation.move c).2.t_.fctx = nullptr ∧
      (callcc c tpl arg r w).c.t_.fctx = nullptr ∧
      (callcc_void c r w).c.t_.fctx = nullptr ∧
      (callcc_ontop c tpl fn arg r w).c.t_.fctx = nullptr ∧
      (callcc_ontop_void c tpl fn r w).c.t_.fctx = nullptr) := by
  by_cases hc : c.t_.fctx = nullptr
  · have hc1 : ¬ (nullptr ≠ c.t_.fctx) := fun h => h hc.symm
    simp [callcc, callcc_void, callcc_ontop, callcc_ontop_void, hc1, hc,
      continuation.default, continuation.move]
  · have hc1 : nullptr ≠ c.t_.fctx := fun h => hc h.symm
    cases r <;>
      simp [callcc, callcc_void, callcc_ontop, callcc_ontop_void, hc1, hc,
        exchange, jump_fcontext, ontop_fcontext, Resumption.outcome,
        context_unwind, Except.map, continuation.default, continuation.move]

/-- Witness for C2 at the default-constructed handle. -/
theorem resume_null_handle_fails_witness :
    (callcc_void continuation.default (Resumption.resumed (transfer_t.mk 7 0))
        (World.empty Nat)).world.log = (World.empty Nat).log :=
  ((resume_null_handle_fails continuation.default 100 3 [1]
    (Resumption.resumed (transfer_t.mk 7 0)) (World.empty Nat)).2.1 rfl).2.1

/-- C6: the destructor of a handle with a non-null context nulls the context
of the handle and performs exactly one inject switch, into that context, with
a null payload and `context_unwind`; `context_unwind` throws the forced-unwind
signal that carries the context of the side that requested the unwind. The
destructor of a handle with a null context performs no switch. -/
theorem destructor_unwinds {α : Type} (c : continuation) (r : Resumption)
    (w : World α) :
    (c.t_.fctx ≠ nullptr →
      (c.destructor r w).c.t_.fctx = nullptr ∧
      (c.destructor r w).world.log
        = w.log ++ [Event.ontop_fcontext c.t_.fctx nullptr OntopFn.context_unwind] ∧
      (c.destructor r w).world.mem = w.mem) ∧
    (∀ requester : fcontext_t,
      context_unwind (delivered requester nullptr)
        = Except.error (Signal.forced_unwind requester)) ∧
    (c.t_.fctx = nullptr →
      (c.destructor r w).world.log = w.log ∧
      (c.destructor r w).world.mem = w.mem ∧
      (c.destructor r w).c = c ∧
      (c.destructor r w).result = Except.ok ()) := by
  refine ⟨?_, ?_, ?_⟩
  · intro hc
    have hc1 : nullptr ≠ c.t_.fctx := fun h => hc h.symm
    cases r <;>
      simp [continuation.destructor, hc1, exchange, ontop_fcontext, World.emit,
        Resumption.outcome, context_unwind]
  · intro requester
    rfl
  · intro hc
    have hc1 : ¬ (nullptr ≠ c.t_.fctx) := fun h => h hc.symm
    simp [continuation.destructor, hc1]

/-- Witness for C6 at the handle `{ 5, 0 }` in the empty world. -/
theorem destructor_unwinds_witness :
    ((continuation.mk (transfer_t.mk 5 0)).destructor
        (Resumption.resumed (transfer_t.mk 0 0)) (World.empty Nat)).world.log
      = [Event.ontop_fcontext 5 nullptr OntopFn.context_unwind] :=
  ((destructor_unwinds (continuation.mk (transfer_t.mk 5 0))
    (Resumption.resumed (transfer_t.mk 0 0)) (World.empty Nat)).1 (by decide)).2.1

/-- C7: move construction gives the new handle the context reference and the
payload pointer of the source and leaves the source with both null. Move
assignment between two distinct handles gives the destination the state of the
source, leaves the source with both fields null, leaves every other handle
alone, and tears down the previous context of the destination with one unwind
switch when it was non-null (no switch otherwise). Self-assignment changes
nothing. -/
theorem move_transfers_ownership {α : Type} (s : continuation) (h : Handles)
    (dst : Nat) (src : Nat) (r : Resumption) (w : World α) :
    ((continuation.move s).1 = s ∧
      (continuation.move s).2.t_ = transfer_t.mk nullptr nullptr) ∧
    (dst ≠ src →
      (continuation.assign dst src h r w).handles dst = h src ∧
      ((continuation.assign dst src h r w).handles src).t_
        = transfer_t.mk nullptr nullptr ∧
      (∀ k : Nat, k ≠ dst → k ≠ src →
        (continuation.assign dst src h r w).handles k = h k) ∧
      ((h dst).t_.fctx ≠ nullptr →
        (continuation.assign dst src h r w).world.log
          = w.log ++
            [Event.ontop_fcontext (h dst).t_.fctx nullptr OntopFn.context_unwind]) ∧
      ((h dst).t_.fctx = nullptr →
        (continuation.assign dst src h r w).world.log = w.log)) ∧
    ((continuation.assign dst dst h r w).handles = h ∧
      (continuation.assign dst dst h r w).world.log = w.log ∧
      (continuation.assign dst dst h r w).world.mem = w.mem) := by
  refine ⟨⟨rfl, rfl⟩, ?_, ?_⟩
  · intro hne
    have hne1 : src ≠ dst := fun e => hne e.symm
    refine ⟨?_, ?_, ?_, ?_, ?_⟩
    · simp [continuation.assign, hne, continuation.move, continuation.swap]
    · simp [continuation.assign, hne, hne1, continuation.move,
        continuation.swap, Function.update]
    · intro k hk1 hk2
      simp [continuation.assign, hne, Function.update, hk1, hk2]
    · intro hd
      have hd1 : nullptr ≠ (h dst).t_.fctx := fun e => hd e.symm
      simp [continuation.assign, hne, continuation.swap, Function.update,
        continuation.destructor, hd1, exchange, ontop_fcontext, World.emit]
      cases r <;> simp [Resumption.outcome, context_unwind]
    · intro hd
      have hd1 : ¬ (nullptr ≠ (h dst).t_.fctx) := fun e => e hd.symm
      simp [continuation.assign, hne, continuation.swap, Function.update,
        continuation.destructor, hd1]
  · simp [continuation.assign]

/-- Witness for C7: the handle at address 1 holds `{ 5, 6 }`, the handle at
address 2 holds `{ 7, 8 }`, and the second is move-assigned to the first. -/
theorem move_transfers_ownership_witness :
    (continuation.assign 1 2
        (fun k => if k = 1 then continuation.mk (transfer_t.mk 5 6)
          else continuation.mk (transfer_t.mk 7 8))
        (Resumption.resumed (transfer_t.mk 0 0)) (World.empty Nat)).handles 1
      = continuation.mk (transfer_t.mk 7 8) :=
  ((@move_transfers_ownership Nat continuation.default
    (fun k => if k = 1 then continuation.mk (transfer_t.mk 5 6)
      else continuation.mk (transfer_t.mk 7 8)) 1 2
    (Resumption.resumed (transfer_t.mk 0 0)) (World.empty Nat)).2.1 (by decide)).1

/-! ### Transfer of values -/

theorem Result.values_of_values {α : Type} (vs : List α) :
    (Result.of_values vs).values = vs := by
  match vs with
  | [] => rfl
  | [_] => rfl
  | _ :: _ :: _ => rfl

theorem result_type_get_tuple {α : Type} (vs : List α) (t : transfer_t)
    (w : World α) (ht : t.data ≠ nullptr)
    (hm : w.mem t.data = some (Obj.tuple vs)) :
    result_type.get vs.length t w = Except.ok (Result.of_values vs) := by
  unfold result_type.get
  rw [if_neg ht]
  match vs, hm with
  | [], hm => simp [hm, Result.of_values]
  | [v], hm => simp [hm, Result.of_values]
  | v1 :: v2 :: vs, hm => simp [hm, Result.of_values]

theorem callcc_received {α : Type} (c : continuation)
    (hc : c.t_.fctx ≠ nullptr) (sender : fcontext_t) (tpl : Nat)
    (ht : tpl ≠ nullptr) (vs : List α) (r : Resumption) (w : World α) :
    received sender (callcc c tpl vs r w).world
        = some (continuation.of_transfer (delivered sender tpl)) ∧
      data vs.length (continuation.of_transfer (delivered sender tpl))
          (callcc c tpl vs r w).world
        = Except.ok (Result.of_values vs) := by
  have hc1 : nullptr ≠ c.t_.fctx := fun h => hc h.symm
  have ht1 : nullptr ≠ tpl := fun h => ht h.symm
  constructor
  · simp [received, World.last_switch, callcc, hc1, exchange, jump_fcontext,
      World.emit, World.store]
  · unfold data
    simp only [continuation.of_transfer, delivered]
    rw [if_pos ht1]
    apply result_type_get_tuple
    · exact ht
    · simp [callcc, hc1, exchange, jump_fcontext, World.emit, World.store]

theorem resume_of_ne_nil {α : Type} (c : continuation) (tpl : Nat)
    (arg : List α) (harg : arg ≠ []) (r : Resumption) (w : World α) :
    resume c tpl arg r w = callcc c tpl arg r w := by
  match arg, harg with
  | _ :: _, _ => rfl

/-- C3, the claim as stated fails for the empty tuple of values: the resume
without values through the handle `{ 6, 0 }` selects `callcc( continuation &&)`,
the handle of the resumed side has a null payload pointer, and `data<>()` on it
fails its assertion instead of yielding the empty tuple. -/
theorem round_trip_empty_counterexample :
    received 7 (resume (continuation.mk (transfer_t.mk 6 0)) 100 ([] : List Nat)
        (Resumption.resumed (transfer_t.mk 0 0)) (World.empty Nat)).world
      = some (continuation.mk (transfer_t.mk 7 nullptr)) ∧
    data ([] : List Nat).length (continuation.mk (transfer_t.mk 7 nullptr))
        (resume (continuation.mk (transfer_t.mk 6 0)) 100 ([] : List Nat)
          (Resumption.resumed (transfer_t.mk 0 0)) (World.empty Nat)).world
      = Except.error (Signal.assertion Assertion.data_not_null) ∧
    ¬ (∃ there : continuation,
      received 7 (resume (continuation.mk (transfer_t.mk 6 0)) 100 ([] : List Nat)
          (Resumption.resumed (transfer_t.mk 0 0)) (World.empty Nat)).world
        = some there ∧
      data ([] : List Nat).length there
          (resume (continuation.mk (transfer_t.mk 6 0)) 100 ([] : List Nat)
            (Resumption.resumed (transfer_t.mk 0 0)) (World.empty Nat)).world
        = Except.ok (Result.of_values ([] : List Nat))) := by
  have hr : received 7 (resume (continuation.mk (transfer_t.mk 6 0)) 100
      ([] : List Nat) (Resumption.resumed (transfer_t.mk 0 0))
      (World.empty Nat)).world
      = some (continuation.mk (transfer_t.mk 7 nullptr)) := by
    simp [received, World.last_switch, resume, callcc_void, nullptr, exchange,
      jump_fcontext, World.emit, World.empty, continuation.of_transfer, delivered]
  refine ⟨hr, ?_, ?_⟩
  · simp [data, nullptr]
  · rintro ⟨there, h1, h2⟩
    rw [hr] at h1
    cases h1
    simp [data, nullptr] at h2

/-- C3 as amended: round-trip transfer for a non-empty tuple of values. A
resume with the values `V` hands them to the resumed side, whose handle yields
`V` through `data` (the plain value when `V` has one element, the tuple
otherwise); when that side at once echoes what it read back through the handle
it was given, the handle the resumer receives yields `V` again. -/
theorem round_trip_transfer {α : Type} (c : continuation)
    (hc : c.t_.fctx ≠ nullptr) (caller : fcontext_t) (callee : fcontext_t)
    (hcaller : caller ≠ nullptr) (tpl1 : Nat) (tpl2 : Nat)
    (h1 : tpl1 ≠ nullptr) (h2 : tpl2 ≠ nullptr) (V : List α) (hV : V ≠ [])
    (r1 : Resumption) (r2 : Resumption) (w : World α) :
    ∃ there : continuation, ∃ back : continuation,
      received caller (resume c tpl1 V r1 w).world = some there ∧
      data V.length there (resume c tpl1 V r1 w).world
        = Except.ok (Result.of_values V) ∧
      received callee
          (echo V.length tpl2 there r2 (resume c tpl1 V r1 w).world).world
        = some back ∧
      data V.length back
          (echo V.length tpl2 there r2 (resume c tpl1 V r1 w).world).world
        = Except.ok (Result.of_values V) := by
  rw [resume_of_ne_nil c tpl1 V hV r1 w]
  obtain ⟨hr, hd⟩ := callcc_received c hc caller tpl1 h1 V r1 w
  have hthere : (continuation.of_transfer (delivered caller tpl1)).t_.fctx ≠ nullptr :=
    hcaller
  obtain ⟨hr2, hd2⟩ := callcc_received
    (continuation.of_transfer (delivered caller tpl1)) hthere callee tpl2 h2 V r2
    (callcc c tpl1 V r1 w).world
  refine ⟨continuation.of_transfer (delivered caller tpl1),
    continuation.of_transfer (delivered callee tpl2), hr, hd, ?_, ?_⟩
  · simp only [echo, hd, Result.values_of_values]
    rw [resume_of_ne_nil _ tpl2 V hV r2 _]
    exact hr2
  · simp only [echo, hd, Result.values_of_values]
    rw [resume_of_ne_nil _ tpl2 V hV r2 _]
    exact hd2

/-- Witness for C3 as amended: the values `1, 2` sent through the handle
`{ 5, 0 }`. -/
theorem round_trip_transfer_witness :
    ∃ there : continuation, ∃ back : continuation,
      received 7 (resume (continuation.mk (transfer_t.mk 5 0)) 100 [1, 2]
          (Resumption.resumed (transfer_t.mk 0 0)) (World.empty Nat)).world
        = some there ∧
      data [1, 2].length there
          (resume (continuation.mk (transfer_t.mk 5 0)) 100 [1, 2]
            (Resumption.resumed (transfer_t.mk 0 0)) (World.empty Nat)).world
        = Except.ok (Result.of_values [1, 2]) ∧
      received 8
          (echo [1, 2].length 200 there (Resumption.resumed (transfer_t.mk 0 0))
            (resume (continuation.mk (transfer_t.mk 5 0)) 100 [1, 2]
              (Resumption.resumed (transfer_t.mk 0 0)) (World.empty Nat)).world).world
        = some back ∧
      data [1, 2].length back
          (echo [1, 2].length 200 there (Resumption.resumed (transfer_t.mk 0 0))
            (resume (continuation.mk (transfer_t.mk 5 0)) 100 [1, 2]
              (Resumption.resumed (transfer_t.mk 0 0)) (World.empty Nat)).world).world
        = Except.ok (Result.of_values [1, 2]) :=
  round_trip_transfer (continuation.mk (transfer_t.mk 5 0)) (by decide) 7 8
    (by decide) 100 200 (by decide) (by decide) [1, 2] (by decide)
    (Resumption.resumed (transfer_t.mk 0 0))
    (Resumption.resumed (transfer_t.mk 0 0)) (World.empty Nat)

/-- C4, the claim as stated fails: after the resume without values
`callcc( continuation &&)` through the handle `{ 5, 0 }`, the handle of the
resumed side has a null payload pointer and `data<>()` fails its assertion
instead of returning the empty tuple. -/
theorem arity_zero_counterexample :
    received 7 (callcc_void (continuation.mk (transfer_t.mk 5 0))
        (Resumption.resumed (transfer_t.mk 0 0)) (World.empty Nat)).world
      = some (continuation.mk (transfer_t.mk 7 nullptr)) ∧
    data 0 (continuation.mk (transfer_t.mk 7 nullptr))
        (callcc_void (continuation.mk (transfer_t.mk 5 0))
          (Resumption.resumed (transfer_t.mk 0 0)) (World.empty Nat)).world
      = Except.error (Signal.assertion Assertion.data_not_null) ∧
    data 0 (continuation.mk (transfer_t.mk 7 nullptr))
        (callcc_void (continuation.mk (transfer_t.mk 5 0))
          (Resumption.resumed (transfer_t.mk 0 0)) (World.empty Nat)).world
      ≠ Except.ok (Result.tuple ([] : List Nat)) := by
  refine ⟨?_, ?_, ?_⟩
  · simp [received, World.last_switch, callcc_void, nullptr, exchange,
      jump_fcontext, World.emit, World.empty, continuation.of_transfer, delivered]
  · simp [data, nullptr]
  · simp [data, nullptr]

/-- C4 as amended: after a resume with one value `data< T >()` yields the plain
value, and after a resume with three values `data< A, B, C >()` yields the
tuple of the three; after the resume without values the handle of the resumed
side has a null payload pointer, `has_data` is false on it and `data<>()`
fails its assertion. -/
theorem arity_variants {α : Type} (c : continuation)
    (hc : c.t_.fctx ≠ nullptr) (sender : fcontext_t) (tpl : Nat)
    (ht : tpl ≠ nullptr) (x : α) (y : α) (z : α) (r : Resumption)
    (w : World α) :
    (∃ h : continuation,
      received sender (callcc c tpl [x] r w).world = some h ∧
      data 1 h (callcc c tpl [x] r w).world = Except.ok (Result.plain x)) ∧
    (∃ h : continuation,
      received sender (callcc c tpl [x, y, z] r w).world = some h ∧
      data 3 h (callcc c tpl [x, y, z] r w).world
        = Except.ok (Result.tuple [x, y, z])) ∧
    (∃ h : continuation,
      received sender (callcc_void c r w).world = some h ∧
      h.t_.data = nullptr ∧
      has_data h = false ∧
      data 0 h (callcc_void c r w).world
        = (Except.error (Signal.assertion Assertion.data_not_null) :
            Except Signal (Result α))) := by
  have hc1 : nullptr ≠ c.t_.fctx := fun h => hc h.symm
  refine ⟨?_, ?_, ?_⟩
  · exact ⟨_, (callcc_received c hc sender tpl ht [x] r w).1,
      (callcc_received c hc sender tpl ht [x] r w).2⟩
  · exact ⟨_, (callcc_received c hc sender tpl ht [x, y, z] r w).1,
      (callcc_received c hc sender tpl ht [x, y, z] r w).2⟩
  · refine ⟨continuation.of_transfer (delivered sender nullptr), ?_, rfl, ?_, ?_⟩
    · simp [received, World.last_switch, callcc_void, hc1, exchange,
        jump_fcontext, World.emit]
    · simp [has_data, continuation.of_transfer, delivered]
    · simp [data, continuation.of_transfer, delivered]

/-- Witness for C4 as amended, at the handle `{ 5, 0 }` and the values
`1, 2, 3`. -/
theorem arity_variants_witness :
    ∃ h : continuation,
      received 7 (callcc (continuation.mk (transfer_t.mk 5 0)) 100 [1]
          (Resumption.resumed (transfer_t.mk 0 0)) (World.empty Nat)).world
        = some h ∧
      data 1 h (callcc (continuation.mk (transfer_t.mk 5 0)) 100 [1]
          (Resumption.resumed (transfer_t.mk 0 0)) (World.empty Nat)).world
        = Except.ok (Result.plain 1) :=
  (arity_variants (continuation.mk (transfer_t.mk 5 0)) (by decide) 7 100
    (by decide) 1 2 3 (Resumption.resumed (transfer_t.mk 0 0))
    (World.empty Nat)).1

/-! ### Stack layout -/

theorem wsub_of_le (a : Nat) (b : Nat) (hb : b ≤ a) (ha : a < word) :
    wsub a b = a - b := by
  unfold wsub word at *
  omega

theorem reserve_std_align (top : Nat) (size : Nat) (func_size : Nat)
    (h1 : func_size + 64 < top) (h2 : top < word) :
    reserve false top size func_size
      = Except.ok ((top - func_size - 64 + 63) / 64 * 64,
          wsub size (top - (top - func_size - 64 + 63) / 64 * 64)) := by
  have e1 : wsub top func_size = top - func_size := wsub_of_le _ _ (by omega) h2
  have e2 : wsub (top - func_size) 64 = top - func_size - 64 :=
    wsub_of_le _ _ (by omega) (by omega)
  have e3 : (func_size + 64) % word = func_size + 64 := Nat.mod_eq_of_lt (by omega)
  have e4 : (top - func_size - 64 + 63) % word = top - func_size - 64 + 63 :=
    Nat.mod_eq_of_lt (by omega)
  have e5 : wsub ((top - func_size - 64 + 63) / 64 * 64) (top - func_size - 64)
      = (top - func_size - 64 + 63) / 64 * 64 - (top - func_size - 64) :=
    wsub_of_le _ _ (by omega) (by omega)
  have e6 : wsub top ((top - func_size - 64 + 63) / 64 * 64)
      = top - (top - func_size - 64 + 63) / 64 * 64 :=
    wsub_of_le _ _ (by omega) h2
  have e7 : nullptr ≠ (top - func_size - 64 + 63) / 64 * 64 := by
    unfold nullptr
    omega
  simp only [reserve, func_alignment, std_align, e1, e2, e3, e4, e5, e6]
  have e8 : ¬ (func_size + 64 < func_size) := by omega
  have e9 : ¬ (64 < (top - func_size - 64 + 63) / 64 * 64 - (top - func_size - 64)) := by
    omega
  simp [e8, e9, e7, e6]

/-- Without `std::align` the control block is placed directly below the top,
unaligned, and the usable size is the stack size less `sizeof( Record)`. -/
theorem reserve_without_std_align (top : Nat) (size : Nat) (func_size : Nat) :
    reserve true top size func_size
      = Except.ok (wsub top func_size, wsub size func_size) := by
  simp [reserve]

/-- C9: stack layout, in a build with `std::align`. For a stack top `top`
with `func_size + 64 < top < 2 ^ 64`, both overloads of `context_create`
reserve the control block at an address `sp` that is a multiple of 64 with
`top - func_size - 64 ≤ sp ≤ top - func_size`: the assertion on `sp` holds and
the block ends at or below the top. The size passed to `make_fcontext` is
`size - ( top - sp)` in `std::size_t` arithmetic, which is the stack size less
the reserved region whenever that region fits into the stack. -/
theorem stack_layout {α : Type} (top : Nat) (size : Nat) (func_size : Nat)
    (h1 : func_size + 64 < top) (h2 : top < word) (salloc : Nat) (fn : Nat)
    (sctx : stack_context) (fctx : fcontext_t) (r : Resumption) (w : World α) :
    ∃ sp : Nat, ∃ usable : Nat,
      reserve false top size func_size = Except.ok (sp, usable) ∧
      sp % 64 = 0 ∧
      top - func_size - 64 ≤ sp ∧
      sp ≤ top - func_size ∧
      sp + func_size ≤ top ∧
      usable = wsub size (top - sp) ∧
      (size < word → top - sp ≤ size → usable = size - (top - sp)) ∧
      (context_create false func_size salloc fn
          (Except.ok (stack_context.mk size top)) fctx r w).1.log
        = w.log ++ [Event.allocate salloc, Event.make_fcontext sp usable]
            ++ (if nullptr ≠ fctx then [Event.jump_fcontext fctx sp] else []) ∧
      (context_create_preallocated false func_size
          (preallocated.mk top size sctx) salloc fn fctx r w).1.log
        = w.log ++ [Event.make_fcontext sp usable]
            ++ (if nullptr ≠ fctx then [Event.jump_fcontext fctx sp] else []) := by
  have hr := reserve_std_align top size func_size h1 h2
  refine ⟨(top - func_size - 64 + 63) / 64 * 64,
    wsub size (top - (top - func_size - 64 + 63) / 64 * 64), hr, ?_, ?_, ?_, ?_,
    rfl, ?_, ?_, ?_⟩
  · omega
  · omega
  · omega
  · omega
  · intro hs hle
    exact wsub_of_le _ _ hle hs
  · by_cases hf : nullptr ≠ fctx
    · simp [context_create, hr, hf, jump_fcontext, World.emit, World.store]
    · simp [context_create, hr, hf, World.emit]
  · by_cases hf : nullptr ≠ fctx
    · simp [context_create_preallocated, hr, hf, jump_fcontext, World.emit,
        World.store]
    · simp [context_create_preallocated, hr, hf, World.emit]

/-- Witness for C9: a stack of 4096 bytes below the address 10000 and a
control block of 8 bytes. -/
theorem stack_layout_witness :
    ∃ sp : Nat, ∃ usable : Nat,
      reserve false 10000 4096 8 = Except.ok (sp, usable) ∧
      sp % 64 = 0 ∧
      10000 - 8 - 64 ≤ sp ∧
      sp ≤ 10000 - 8 ∧
      sp + 8 ≤ 10000 ∧
      usable = wsub 4096 (10000 - sp) ∧
      (4096 < word → 10000 - sp ≤ 4096 → usable = 4096 - (10000 - sp)) ∧
      (context_create false 8 1 3 (Except.ok (stack_context.mk 4096 10000)) 77
          (Resumption.resumed (transfer_t.mk 0 0)) (World.empty Nat)).1.log
        = (World.empty Nat).log ++ [Event.allocate 1, Event.make_fcontext sp usable]
            ++ (if nullptr ≠ 77 then [Event.jump_fcontext 77 sp] else []) ∧
      (context_create_preallocated false 8
          (preallocated.mk 10000 4096 (stack_context.mk 4096 10000)) 1 3 77
          (Resumption.resumed (transfer_t.mk 0 0)) (World.empty Nat)).1.log
        = (World.empty Nat).log ++ [Event.make_fcontext sp usable]
            ++ (if nullptr ≠ 77 then [Event.jump_fcontext 77 sp] else []) :=
  stack_layout 10000 4096 8 (by decide) (by decide) 1 3
    (stack_context.mk 4096 10000) 77 (Resumption.resumed (transfer_t.mk 0 0))
    (World.empty Nat)

/-! ### Entry trampoline -/

theorem destructor_of_null {α : Type} (c : continuation)
    (hc : c.t_.fctx = nullptr) (r : Resumption) (w : World α) :
    c.destructor r w = Call.mk w c (Except.ok ()) := by
  have hc1 : ¬ (nullptr ≠ c.t_.fctx) := fun h => h hc.symm
  simp [continuation.destructor, hc1]

theorem record_run_returns {α : Type} (invoke : Callable α) (p : Nat)
    (t : transfer_t) (r : Resumption) (w : World α) (salloc : Nat)
    (sctx : stack_context) (fn : Nat) (cc : continuation)
    (hrec : w.mem p = some (Obj.record salloc sctx fn))
    (harg : (invoke fn (continuation.of_transfer t) w).arg.t_.fctx = nullptr)
    (hres : (invoke fn (continuation.of_transfer t) w).result = Except.ok cc) :
    record.run invoke p t r w
      = ((invoke fn (continuation.of_transfer t) w).world,
          Except.ok (transfer_t.mk cc.t_.fctx nullptr)) := by
  simp only [record.run, hrec, hres, exchange]
  rw [destructor_of_null (continuation.mk (transfer_t.mk nullptr cc.t_.data)) rfl]
  simp only []
  rw [destructor_of_null _ harg]

theorem record_run_throws {α : Type} (invoke : Callable α) (p : Nat)
    (t : transfer_t) (r : Resumption) (w : World α) (salloc : Nat)
    (sctx : stack_context) (fn : Nat) (s : Signal)
    (hrec : w.mem p = some (Obj.record salloc sctx fn))
    (harg : (invoke fn (continuation.of_transfer t) w).arg.t_.fctx = nullptr)
    (hres : (invoke fn (continuation.of_transfer t) w).result = Except.error s) :
    record.run invoke p t r w
      = ((invoke fn (continuation.of_transfer t) w).world, Except.error s) := by
  simp only [record.run, hrec, hres]
  rw [destructor_of_null _ harg]

theorem context_entry_exit {α : Type} (invoke : Callable α) (self : fcontext_t)
    (t_ : transfer_t) (r0 : Resumption) (r : Resumption) (w : World α)
    (wb : World α) (t : transfer_t) (salloc : Nat) (sctx : stack_context)
    (fn : Nat) (hp : t_.data ≠ nullptr)
    (hbody : context_entry_try invoke t_ r0 r w = (wb, Except.ok t))
    (ht : t.fctx ≠ nullptr)
    (hkeep : wb.mem t_.data = some (Obj.record salloc sctx fn)) :
    context_entry invoke self t_ r0 r w
      = (World.mk (Function.update wb.mem t_.data none)
          (wb.log ++ [Event.ontop_fcontext t.fctx t_.data OntopFn.context_exit,
            Event.record_destroyed t_.data, Event.deallocate salloc sctx]),
         Except.ok (t.fctx, transfer_t.mk nullptr nullptr)) := by
  have hp1 : nullptr ≠ t_.data := fun h => hp h.symm
  have ht1 : nullptr ≠ t.fctx := fun h => ht h.symm
  simp [context_entry, hp1, hbody, ht1, context_exit, delivered,
    record.deallocate, record.destroy, World.emit, World.erase, hkeep]

theorem context_entry_try_returns {α : Type} (invoke : Callable α)
    (t_ : transfer_t) (t0 : transfer_t) (r : Resumption) (w : World α)
    (salloc : Nat) (sctx : stack_context) (fn : Nat) (i : Invoked α)
    (cc : continuation)
    (hrec : w.mem t_.data = some (Obj.record salloc sctx fn))
    (hi : invoke fn (continuation.of_transfer t0)
      (w.emit (Event.jump_fcontext t_.fctx nullptr)) = i)
    (harg : i.arg.t_.fctx = nullptr) (hres : i.result = Except.ok cc) :
    context_entry_try invoke t_ (Resumption.resumed t0) r w
      = (i.world, Except.ok (transfer_t.mk cc.t_.fctx nullptr)) := by
  subst hi
  have hrec1 : (w.emit (Event.jump_fcontext t_.fctx nullptr)).mem t_.data
      = some (Obj.record salloc sctx fn) := hrec
  simp only [context_entry_try, jump_fcontext, Resumption.outcome]
  rw [record_run_returns invoke t_.data t0 r _ salloc sctx fn cc hrec1 harg hres]

theorem context_entry_try_unwinds {α : Type} (invoke : Callable α)
    (t_ : transfer_t) (t0 : transfer_t) (r : Resumption) (w : World α)
    (salloc : Nat) (sctx : stack_context) (fn : Nat) (i : Invoked α)
    (fctx : fcontext_t)
    (hrec : w.mem t_.data = some (Obj.record salloc sctx fn))
    (hi : invoke fn (continuation.of_transfer t0)
      (w.emit (Event.jump_fcontext t_.fctx nullptr)) = i)
    (harg : i.arg.t_.fctx = nullptr)
    (hres : i.result = Except.error (Signal.forced_unwind fctx)) :
    context_entry_try invoke t_ (Resumption.resumed t0) r w
      = (i.world, Except.ok (transfer_t.mk fctx nullptr)) := by
  subst hi
  have hrec1 : (w.emit (Event.jump_fcontext t_.fctx nullptr)).mem t_.data
      = some (Obj.record salloc sctx fn) := hrec
  simp only [context_entry_try, jump_fcontext, Resumption.outcome]
  rw [record_run_throws invoke t_.data t0 r _ salloc sctx fn _ hrec1 harg hres]

theorem deallocations_append {α : Type} (w : World α) (m : Nat → Option (Obj α))
    (target : fcontext_t) (p : Nat) (salloc : Nat) (sctx : stack_context) :
    (World.mk m (w.log ++ [Event.ontop_fcontext target p OntopFn.context_exit,
        Event.record_destroyed p, Event.deallocate salloc sctx])).deallocations
      = w.deallocations ++ [(salloc, sctx)] := by
  simp [World.deallocations, List.filterMap_append]

/-- C5: no double deallocation. The entry trampoline of a context whose
control block holds the allocator `salloc` and the descriptor `sctx` hands the
stack back exactly once, through the one inject of `context_exit`, with that
allocator and that descriptor: when the user callable returns a handle (with a
non-null context), when the forced-unwind signal leaves the user callable, and
when the signal reaches the trampoline while it waits in its handshake. -/
theorem trampoline_deallocates_once {α : Type} (invoke : Callable α)
    (self : fcontext_t) (t_ : transfer_t) (t0 : transfer_t) (r : Resumption)
    (w : World α) (salloc : Nat) (sctx : stack_context) (fn : Nat)
    (i : Invoked α) (target : fcontext_t)
    (hp : t_.data ≠ nullptr)
    (hrec : w.mem t_.data = some (Obj.record salloc sctx fn))
    (hi : invoke fn (continuation.of_transfer t0)
      (w.emit (Event.jump_fcontext t_.fctx nullptr)) = i)
    (harg : i.arg.t_.fctx = nullptr)
    (hkeep : i.world.mem t_.data = some (Obj.record salloc sctx fn))
    (ht : target ≠ nullptr) :
    (((∃ cc : continuation, i.result = Except.ok cc ∧ cc.t_.fctx = target) ∨
        i.result = Except.error (Signal.forced_unwind target)) →
      (context_entry invoke self t_ (Resumption.resumed t0) r w).2
        = Except.ok (target, transfer_t.mk nullptr nullptr) ∧
      (context_entry invoke self t_ (Resumption.resumed t0) r w).1.log
        = i.world.log ++
          [Event.ontop_fcontext target t_.data OntopFn.context_exit,
            Event.record_destroyed t_.data, Event.deallocate salloc sctx] ∧
      (context_entry invoke self t_ (Resumption.resumed t0) r w).1.deallocations
        = i.world.deallocations ++ [(salloc, sctx)]) ∧
    (∀ vp : Nat,
      (context_entry invoke self t_
          (Resumption.unwound (transfer_t.mk target vp)) r w).2
        = Except.ok (target, transfer_t.mk nullptr nullptr) ∧
      (context_entry invoke self t_
          (Resumption.unwound (transfer_t.mk target vp)) r w).1.log
        = w.log ++
          [Event.jump_fcontext t_.fctx nullptr,
            Event.ontop_fcontext target t_.data OntopFn.context_exit,
            Event.record_destroyed t_.data, Event.deallocate salloc sctx] ∧
      (context_entry invoke self t_
          (Resumption.unwound (transfer_t.mk target vp)) r w).1.deallocations
        = w.deallocations ++ [(salloc, sctx)]) := by
  constructor
  · intro hexit
    have hbody : context_entry_try invoke t_ (Resumption.resumed t0) r w
        = (i.world, Except.ok (transfer_t.mk target nullptr)) := by
      rcases hexit with ⟨cc, hres, hcc⟩ | hres
      · rw [← hcc]
        exact context_entry_try_returns invoke t_ t0 r w salloc sctx fn i cc hrec
          hi harg hres
      · exact context_entry_try_unwinds invoke t_ t0 r w salloc sctx fn i target
          hrec hi harg hres
    rw [context_entry_exit invoke self t_ (Resumption.resumed t0) r w i.world
      (transfer_t.mk target nullptr) salloc sctx fn hp hbody ht hkeep]
    exact ⟨rfl, rfl, deallocations_append _ _ _ _ _ _⟩
  · intro vp
    have hbody : context_entry_try invoke t_
        (Resumption.unwound (transfer_t.mk target vp)) r w
        = (w.emit (Event.jump_fcontext t_.fctx nullptr),
            Except.ok (transfer_t.mk target nullptr)) := by
      simp [context_entry_try, jump_fcontext, Resumption.outcome, context_unwind]
    rw [context_entry_exit invoke self t_
      (Resumption.unwound (transfer_t.mk target vp)) r w _
      (transfer_t.mk target nullptr) salloc sctx fn hp hbody ht hrec]
    refine ⟨rfl, ?_, ?_⟩
    · simp [World.emit]
    · simp [World.deallocations, World.emit, List.filterMap_append]

/-- C10: completion yields a null handle. When the user callable returns the
handle `cc`, `record::run` empties it and drops its payload pointer, without a
switch. If the context of `cc` is non-null, the trampoline switches into it
with `context_exit`, and the transfer handed to the side resumed there makes a
handle with a null context and a null payload pointer, on which `has_data` is
false. If the context of `cc` is null, the assertion of the trampoline fails
and no switch is made. -/
theorem completion_yields_null_handle {α : Type} (invoke : Callable α)
    (self : fcontext_t) (t_ : transfer_t) (t0 : transfer_t) (r : Resumption)
    (w : World α) (salloc : Nat) (sctx : stack_context) (fn : Nat)
    (i : Invoked α) (cc : continuation)
    (hp : t_.data ≠ nullptr)
    (hrec : w.mem t_.data = some (Obj.record salloc sctx fn))
    (hi : invoke fn (continuation.of_transfer t0)
      (w.emit (Event.jump_fcontext t_.fctx nullptr)) = i)
    (harg : i.arg.t_.fctx = nullptr)
    (hkeep : i.world.mem t_.data = some (Obj.record salloc sctx fn))
    (hres : i.result = Except.ok cc) :
    record.run invoke t_.data t0 r (w.emit (Event.jump_fcontext t_.fctx nullptr))
      = (i.world, Except.ok (transfer_t.mk cc.t_.fctx nullptr)) ∧
    (cc.t_.fctx ≠ nullptr →
      ∃ t1 : transfer_t,
        (context_entry invoke self t_ (Resumption.resumed t0) r w).2
          = Except.ok (cc.t_.fctx, t1) ∧
        continuation.of_transfer t1
          = continuation.mk (transfer_t.mk nullptr nullptr) ∧
        (continuation.of_transfer t1).toBool = false ∧
        has_data (continuation.of_transfer t1) = false ∧
        (context_entry invoke self t_ (Resumption.resumed t0) r w).1.log
          = i.world.log ++
            [Event.ontop_fcontext cc.t_.fctx t_.data OntopFn.context_exit,
              Event.record_destroyed t_.data, Event.deallocate salloc sctx]) ∧
    (cc.t_.fctx = nullptr →
      (context_entry invoke self t_ (Resumption.resumed t0) r w).2
        = Except.error (Signal.assertion Assertion.return_not_null) ∧
      (context_entry invoke self t_ (Resumption.resumed t0) r w).1.log
        = i.world.log) := by
  have hrec1 : (w.emit (Event.jump_fcontext t_.fctx nullptr)).mem t_.data
      = some (Obj.record salloc sctx fn) := hrec
  have hbody := context_entry_try_returns invoke t_ t0 r w salloc sctx fn i cc
    hrec hi harg hres
  refine ⟨?_, ?_, ?_⟩
  · subst hi
    exact record_run_returns invoke t_.data t0 r _ salloc sctx fn cc hrec1 harg hres
  · intro hcc
    refine ⟨transfer_t.mk nullptr nullptr, ?_, rfl, rfl, rfl, ?_⟩
    · rw [context_entry_exit invoke self t_ (Resumption.resumed t0) r w i.world
        (transfer_t.mk cc.t_.fctx nullptr) salloc sctx fn hp hbody hcc hkeep]
    · rw [context_entry_exit invoke self t_ (Resumption.resumed t0) r w i.world
        (transfer_t.mk cc.t_.fctx nullptr) salloc sctx fn hp hbody hcc hkeep]
  · intro hcc
    have hp1 : nullptr ≠ t_.data := fun h => hp h.symm
    simp [context_entry, hp1, hbody, hcc]

/-- Witness for C5: the sample callable runs on the sample world and returns
to the context 12. -/
theorem trampoline_deallocates_once_witness :
    (context_entry return_to_caller 42 (transfer_t.mk 11 960)
        (Resumption.resumed (transfer_t.mk 12 0))
        (Resumption.resumed (transfer_t.mk 0 0)) sample_world).1.deallocations
      = (return_to_caller 3 (continuation.of_transfer (transfer_t.mk 12 0))
          (sample_world.emit (Event.jump_fcontext 11 nullptr))).world.deallocations
        ++ [(1, stack_context.mk 4096 1024)] :=
  ((trampoline_deallocates_once return_to_caller 42 (transfer_t.mk 11 960)
    (transfer_t.mk 12 0) (Resumption.resumed (transfer_t.mk 0 0)) sample_world
    1 (stack_context.mk 4096 1024) 3
    (return_to_caller 3 (continuation.of_transfer (transfer_t.mk 12 0))
      (sample_world.emit (Event.jump_fcontext 11 nullptr)))
    12 (by decide) (by simp [sample_world, World.store]) rfl rfl
    (by simp [return_to_caller, sample_world, World.store, World.emit])
    (by decide)).1
    (Or.inl ⟨continuation.mk (transfer_t.mk 12 0), rfl, rfl⟩)).2.2

/-- Witness for C10: the sample callable runs on the sample world and returns
the handle of the context 12. -/
theorem completion_yields_null_handle_witness :
    (context_entry return_to_caller 42 (transfer_t.mk 11 960)
        (Resumption.resumed (transfer_t.mk 12 0))
        (Resumption.resumed (transfer_t.mk 0 0)) sample_world).2
      = Except.ok (12, transfer_t.mk nullptr nullptr) := by
  obtain ⟨t1, h1, h2, _⟩ :=
    (completion_yields_null_handle return_to_caller 42 (transfer_t.mk 11 960)
      (transfer_t.mk 12 0) (Resumption.resumed (transfer_t.mk 0 0)) sample_world
      1 (stack_context.mk 4096 1024) 3
      (return_to_caller 3 (continuation.of_transfer (transfer_t.mk 12 0))
        (sample_world.emit (Event.jump_fcontext 11 nullptr)))
      (continuation.mk (transfer_t.mk 12 0))
      (by decide) (by simp [sample_world, World.store]) rfl rfl
      (by simp [return_to_caller, sample_world, World.store, World.emit])
      rfl).2.1 (by decide)
  rw [h1]
  cases t1
  simp only [continuation.of_transfer, continuation.mk.injEq, transfer_t.mk.injEq] at h2
  simp [h2.1, h2.2]

end Context
